import Mathlib

/-!
Shallow embedding of the Housecall Pro booking-automation scripts
(`playwright_script.mjs`, plus the variants in `unnamed/part_002` and the
arrival-window module `unnamed/part_004`).

JavaScript values that flow through the queue builder are modelled by
`JsValue`; JS numbers are modelled as exact integers (`Option Int`, with
`none` standing for `NaN`).  Double rounding/overflow (which only matters for
quantity strings of three hundred digits or more) is outside the model, as is
exponential rendering of astronomically large numbers by `String(...)`.
-/

namespace HCP

/-- A JavaScript value as it can appear in the booking payload.
`num none` models `NaN`; integers are exact. -/
inductive JsValue where
  | undefined
  | null
  | bool (b : Bool)
  | num (n : Option Int)
  | str (s : String)
  deriving DecidableEq, Repr

/-- JavaScript truthiness. -/
def jsTruthy : JsValue → Bool
  | .undefined => false
  | .null => false
  | .bool b => b
  | .num none => false        -- NaN is falsy
  | .num (some n) => n != 0
  | .str s => s != ""

/-- `String(v)` for the modelled values (integer numbers render in decimal). -/
def jsToString : JsValue → String
  | .undefined => "undefined"
  | .null => "null"
  | .bool true => "true"
  | .bool false => "false"
  | .num none => "NaN"
  | .num (some n) => toString n
  | .str s => s

/-- The maximal leading run of decimal digits, as a number;
`none` when the run is empty. -/
def leadingDigits (cs : List Char) : Option Nat :=
  let ds := cs.takeWhile Char.isDigit
  if ds.isEmpty then none
  else some (ds.foldl (fun a c => a * 10 + (c.toNat - 48)) 0)

/-- `parseInt(s, 10)`: skip leading whitespace, optional sign, then the
maximal run of decimal digits; `none` models `NaN`. -/
def jsParseInt (s : String) : Option Int :=
  let cs := s.data.dropWhile Char.isWhitespace
  match cs with
  | '-' :: rest => (leadingDigits rest).map (fun n => -(n : Int))
  | '+' :: rest => (leadingDigits rest).map (fun n => (n : Int))
  | rest => (leadingDigits rest).map (fun n => (n : Int))

/-- `s.trim()`: strip whitespace from both ends. -/
def jsStrTrim (s : String) : String :=
  String.mk (((s.data.dropWhile Char.isWhitespace).reverse.dropWhile
    Char.isWhitespace).reverse)

/-- `Number(v)` restricted to the modelled values.  A string is converted
only when, after trimming, it is empty (then `0`) or an optionally signed
run of digits; other numeric syntaxes (floats, hex) are outside the model
and are mapped to `NaN`. -/
def jsNumber : JsValue → Option Int
  | .undefined => none
  | .null => some 0
  | .bool b => some (if b then 1 else 0)
  | .num n => n
  | .str s =>
    let t := jsStrTrim s
    if t = "" then some 0
    else
      match t.data with
      | '-' :: rest =>
        if rest ≠ [] ∧ rest.all Char.isDigit then
          (leadingDigits rest).map (fun n => -(n : Int))
        else none
      | '+' :: rest =>
        if rest ≠ [] ∧ rest.all Char.isDigit then
          (leadingDigits rest).map (fun n => (n : Int))
        else none
      | rest =>
        if rest.all Char.isDigit then (leadingDigits rest).map (fun n => (n : Int))
        else none

/-- `a || b`. -/
def jsOr (a b : JsValue) : JsValue := if jsTruthy a then a else b

/-- The guarded parse inside `normInt`: `v == null` (which in JS also
catches `undefined`) short-circuits to no value; otherwise
`parseInt(String(v).trim(), 10)`. -/
def normIntParse (v : JsValue) : Option Int :=
  if v = .null ∨ v = .undefined then none
  else jsParseInt (jsStrTrim (jsToString v))

/-- `normInt` from `playwright_script.mjs` lines 40-44:
`Number.isFinite(n) && n > 0 ? n : 0` (a `NaN` parse is modelled by
`none`, the only non-finite value in the integer model). -/
def normInt (v : JsValue) : Int :=
  match normIntParse v with
  | some n => if 0 < n then n else 0
  | none => 0

/-- The booking-request payload fields used by `buildQueue`. -/
structure Payload where
  carpet_cleaning : JsValue := .undefined
  pet_stain : JsValue := .undefined
  upholstery : JsValue := .undefined
  carpet_stretching : JsValue := .undefined
  bedrooms : JsValue := .undefined
  love_seat : JsValue := .undefined
  couch : JsValue := .undefined
  recliner : JsValue := .undefined
  small_sectional : JsValue := .undefined
  medium_sectional : JsValue := .undefined
  large_sectional : JsValue := .undefined
  deriving DecidableEq, Repr

/-- One queue entry (`q.push({...})` shapes in `buildQueue`). -/
inductive Task where
  | carpet_cleaning (bedrooms : Option Int)
  | pet_stain
  | upholstery (itemKey : String) (itemLabel : String) (qty : Int)
  | carpet_stretching
  deriving DecidableEq, Repr

/-- The fixed upholstery enumeration, in the insertion (iteration) order of
the `map` object literal in `buildQueue`. -/
def upItems : List (String × String) :=
  [("love_seat", "Loveseat"),
   ("couch", "Couch"),
   ("recliner", "Recliner"),
   ("small_sectional", "Small Sectional"),
   ("medium_sectional", "Medium Sectional"),
   ("large_sectional", "Large Sectional")]

/-- `p[key]` for the upholstery keys. -/
def upField (p : Payload) : String → JsValue
  | "love_seat" => p.love_seat
  | "couch" => p.couch
  | "recliner" => p.recliner
  | "small_sectional" => p.small_sectional
  | "medium_sectional" => p.medium_sectional
  | "large_sectional" => p.large_sectional
  | _ => .undefined

/-- `p.x && (p.x === true || p.x === 'True')` — the family-flag test used for
all four service families in `buildQueue`. -/
def famEnabled (v : JsValue) : Bool :=
  jsTruthy v && (v == .bool true || v == .str "True")

/-- The body of the upholstery `for` loop: keep the item iff
`normInt(p[key]) > 0` (the pushed task carries that quantity). -/
def upKeep (p : Payload) (kl : String × String) : Option Task :=
  if 0 < normInt (upField p kl.1) then
    some (.upholstery kl.1 kl.2 (normInt (upField p kl.1)))
  else none

/-- `buildQueue` from `playwright_script.mjs` lines 1261-1311. -/
def buildQueue (p : Payload) : List Task :=
  (if famEnabled p.carpet_cleaning then
      [.carpet_cleaning (jsNumber (jsOr p.bedrooms (.num (some 4))))]
    else [])
  ++ (if famEnabled p.pet_stain then [.pet_stain] else [])
  ++ (if famEnabled p.upholstery then upItems.filterMap (upKeep p) else [])
  ++ (if famEnabled p.carpet_stretching then [.carpet_stretching] else [])

/-- Rank of an upholstery key inside the fixed family order. -/
def upKeyRank : String → Nat
  | "love_seat" => 2
  | "couch" => 3
  | "recliner" => 4
  | "small_sectional" => 5
  | "medium_sectional" => 6
  | "large_sectional" => 7
  | _ => 2

/-- Position of a task's family (and upholstery item) in the fixed order
carpet_cleaning, pet_stain, the six upholstery items, carpet_stretching. -/
def taskRank : Task → Nat
  | .carpet_cleaning _ => 0
  | .pet_stain => 1
  | .upholstery k _ _ => upKeyRank k
  | .carpet_stretching => 8

/-- The payload flag governing a task's family. -/
def familyFlag (p : Payload) : Task → JsValue
  | .carpet_cleaning _ => p.carpet_cleaning
  | .pet_stain => p.pet_stain
  | .upholstery _ _ _ => p.upholstery
  | .carpet_stretching => p.carpet_stretching

lemma upKeep_rank {p : Payload} {kl : String × String} {t : Task}
    (h : upKeep p kl = some t) : taskRank t = upKeyRank kl.1 := by
  unfold upKeep at h
  split at h
  · cases h; rfl
  · cases h

lemma up_ranks_sublist (p : Payload) (items : List (String × String)) :
    ((items.filterMap (upKeep p)).map taskRank).Sublist
      (items.map (fun kl => upKeyRank kl.1)) := by
  induction items with
  | nil => simp
  | cons kl rest ih =>
    cases h : upKeep p kl with
    | none =>
      simp only [List.filterMap_cons, h, List.map_cons]
      exact ih.cons _
    | some t =>
      simp only [List.filterMap_cons, h, List.map_cons, upKeep_rank h]
      exact ih.cons₂ _

lemma ranks_sublist (p : Payload) :
    ((buildQueue p).map taskRank).Sublist [0, 1, 2, 3, 4, 5, 6, 7, 8] := by
  have master : ([0, 1, 2, 3, 4, 5, 6, 7, 8] : List Nat)
      = [0] ++ [1] ++ [2, 3, 4, 5, 6, 7] ++ [8] := rfl
  rw [buildQueue, master, List.map_append, List.map_append, List.map_append]
  refine List.Sublist.append (List.Sublist.append (List.Sublist.append ?_ ?_) ?_) ?_
  · split <;> simp [taskRank]
  · split <;> simp [taskRank]
  · split
    · simpa using up_ranks_sublist p upItems
    · simp
  · split <;> simp [taskRank]

lemma mem_if_nil {c : Bool} {l : List Task} {t : Task}
    (h : t ∈ (if c then l else [])) : c = true ∧ t ∈ l := by
  cases c <;> simp_all

lemma buildQueue_family_enabled (p : Payload) :
    ∀ t ∈ buildQueue p, famEnabled (familyFlag p t) = true := by
  intro t ht
  rw [buildQueue] at ht
  simp only [List.mem_append] at ht
  rcases ht with ((h | h) | h) | h
  · obtain ⟨hc, hm⟩ := mem_if_nil h
    simp only [List.mem_singleton] at hm
    subst hm; exact hc
  · obtain ⟨hc, hm⟩ := mem_if_nil h
    simp only [List.mem_singleton] at hm
    subst hm; exact hc
  · obtain ⟨hc, hm⟩ := mem_if_nil h
    obtain ⟨kl, _, hkeep⟩ := List.mem_filterMap.mp hm
    unfold upKeep at hkeep
    split at hkeep
    · cases hkeep; exact hc
    · cases hkeep
  · obtain ⟨hc, hm⟩ := mem_if_nil h
    simp only [List.mem_singleton] at hm
    subst hm; exact hc

/-- C1: `buildQueue` is a pure, deterministic function of the payload; the
resulting tasks always appear in the fixed family order (carpet cleaning,
pet stain, the six upholstery items in enumeration order, carpet
stretching — witnessed by strictly increasing `taskRank`s), and no task is
added for a disabled family. -/
theorem buildQueue_deterministic_ordered (p : Payload) :
    buildQueue p = buildQueue p ∧
    ((buildQueue p).map taskRank).Pairwise (· < ·) ∧
    ∀ t ∈ buildQueue p, famEnabled (familyFlag p t) = true := by
  refine ⟨rfl, ?_, buildQueue_family_enabled p⟩
  exact List.Pairwise.sublist (ranks_sublist p) (by decide)

/-- A concrete payload used by witnesses. -/
def samplePayload : Payload :=
  { pet_stain := .bool true, upholstery := .bool true,
    couch := .str "2", carpet_stretching := .str "True" }

/-- Witness for C1 at a concrete payload: the ordering holds and the
pet-stain task present in the queue has its family enabled. -/
theorem buildQueue_deterministic_ordered_witness :
    ((buildQueue samplePayload).map taskRank).Pairwise (· < ·) ∧
    famEnabled (familyFlag samplePayload Task.pet_stain) = true :=
  ⟨(buildQueue_deterministic_ordered samplePayload).2.1,
   (buildQueue_deterministic_ordered samplePayload).2.2 Task.pet_stain (by decide)⟩

lemma upholstery_mem_buildQueue (p : Payload) (k lab : String) (q : Int) :
    Task.upholstery k lab q ∈ buildQueue p ↔
      (famEnabled p.upholstery = true ∧ (k, lab) ∈ upItems ∧
       normInt (upField p k) = q ∧ 0 < q) := by
  constructor
  · intro h
    rw [buildQueue] at h
    simp only [List.mem_append] at h
    rcases h with ((h | h) | h) | h
    · obtain ⟨_, hm⟩ := mem_if_nil h; simp at hm
    · obtain ⟨_, hm⟩ := mem_if_nil h; simp at hm
    · obtain ⟨hc, hm⟩ := mem_if_nil h
      obtain ⟨kl, hkl, hkeep⟩ := List.mem_filterMap.mp hm
      unfold upKeep at hkeep
      split at hkeep
      next hpos =>
        obtain ⟨h1, h2, h3⟩ := Task.upholstery.inj (Option.some.inj hkeep)
        subst h1; subst h2; subst h3
        exact ⟨hc, by simpa using hkl, rfl, hpos⟩
      · cases hkeep
    · obtain ⟨_, hm⟩ := mem_if_nil h; simp at hm
  · rintro ⟨hu, hk, hq, hpos⟩
    rw [buildQueue]
    simp only [List.mem_append]
    refine Or.inl (Or.inr ?_)
    rw [if_pos hu]
    refine List.mem_filterMap.mpr ⟨(k, lab), hk, ?_⟩
    unfold upKeep
    rw [hq, if_pos hpos]

lemma normInt_pos_iff (v : JsValue) :
    0 < normInt v ↔ ∃ n, normIntParse v = some n ∧ 0 < n := by
  cases h : normIntParse v with
  | none => simp [normInt, h]
  | some n =>
    simp only [normInt, h]
    constructor
    · intro hpos
      split at hpos
      · next hn => exact ⟨n, rfl, hn⟩
      · exact absurd hpos (lt_irrefl 0)
    · rintro ⟨m, hm, hmpos⟩
      cases hm
      rwa [if_pos hmpos]

lemma normIntParse_of_pos {v : JsValue} (h : 0 < normInt v) :
    normIntParse v = some (normInt v) := by
  cases hp : normIntParse v with
  | none => simp [normInt, hp] at h
  | some n =>
    simp only [normInt, hp] at h ⊢
    split at h
    · next hn => rw [if_pos hn]
    · exact absurd h (lt_irrefl 0)

/-- C2: with upholstery enabled, an enumerated upholstery item produces a
queue task exactly when `parseInt(String(v).trim(), 10)` on its quantity
(after the `v == null` guard) yields a value strictly greater than 0, and
that parsed value is the task's quantity; quantities that are 0, negative,
missing, or unparseable strings never produce a task. -/
theorem upholstery_quantity_filtering (p : Payload)
    (hup : famEnabled p.upholstery = true)
    (k lab : String) (hk : (k, lab) ∈ upItems) :
    ((∃ q, Task.upholstery k lab q ∈ buildQueue p) ↔
       ∃ n, normIntParse (upField p k) = some n ∧ 0 < n) ∧
    (∀ q, Task.upholstery k lab q ∈ buildQueue p →
       normIntParse (upField p k) = some q) := by
  constructor
  · constructor
    · rintro ⟨q, hq⟩
      obtain ⟨-, -, hval, hpos⟩ := (upholstery_mem_buildQueue p k lab q).mp hq
      exact (normInt_pos_iff _).mp (hval ▸ hpos)
    · intro hex
      have hpos : 0 < normInt (upField p k) := (normInt_pos_iff _).mpr hex
      exact ⟨normInt (upField p k),
        (upholstery_mem_buildQueue p k lab _).mpr ⟨hup, hk, rfl, hpos⟩⟩
  · intro q hq
    obtain ⟨-, -, hval, hpos⟩ := (upholstery_mem_buildQueue p k lab q).mp hq
    have := normIntParse_of_pos (v := upField p k) (hval ▸ hpos)
    rwa [hval] at this

/-- Witness for C2: with upholstery enabled and `couch = " 2 "`, a couch
task is in the queue (and the parse of a quantity string drives it). -/
theorem upholstery_quantity_filtering_witness :
    ∃ q, Task.upholstery "couch" "Couch" q ∈
      buildQueue { upholstery := .bool true, couch := .str " 2 ", recliner := .str "abc" } :=
  (upholstery_quantity_filtering
      { upholstery := .bool true, couch := .str " 2 ", recliner := .str "abc" }
      (by decide) "couch" "Couch" (by decide)).1.mpr ⟨2, by decide, by decide⟩

lemma famEnabled_iff (v : JsValue) :
    famEnabled v = true ↔ (v = .bool true ∨ v = .str "True") := by
  cases v with
  | undefined => simp [famEnabled, jsTruthy]
  | null => simp [famEnabled, jsTruthy]
  | bool b => cases b <;> simp [famEnabled, jsTruthy]
  | num n => cases n <;> simp [famEnabled, jsTruthy]
  | str s =>
    simp only [famEnabled, jsTruthy, Bool.and_eq_true, Bool.or_eq_true, beq_iff_eq,
      bne_iff_ne, ne_eq]
    constructor
    · rintro ⟨-, h | h⟩
      · cases h
      · simp [h]
    · rintro (h | h)
      · cases h
      · simp_all

/-- C10: a service family contributes tasks to `buildQueue` exactly (for
upholstery: only) when its flag is the boolean `true` or the exact string
`'True'`; any other truthy value (e.g. `'true'` or the number 1) enables
nothing. -/
theorem buildQueue_flag_strictness (p : Payload) :
    ((∃ b, Task.carpet_cleaning b ∈ buildQueue p) ↔ famEnabled p.carpet_cleaning = true) ∧
    (Task.pet_stain ∈ buildQueue p ↔ famEnabled p.pet_stain = true) ∧
    ((∃ k lab q, Task.upholstery k lab q ∈ buildQueue p) → famEnabled p.upholstery = true) ∧
    (Task.carpet_stretching ∈ buildQueue p ↔ famEnabled p.carpet_stretching = true) ∧
    (∀ v, famEnabled v = true ↔ (v = .bool true ∨ v = .str "True")) := by
  refine ⟨?_, ?_, ?_, ?_, famEnabled_iff⟩
  · constructor
    · rintro ⟨b, hb⟩
      have := buildQueue_family_enabled p _ hb
      simpa [familyFlag] using this
    · intro h
      refine ⟨jsNumber (jsOr p.bedrooms (.num (some 4))), ?_⟩
      rw [buildQueue]
      simp only [List.mem_append]
      exact Or.inl (Or.inl (Or.inl (by rw [if_pos h]; simp)))
  · constructor
    · intro hb
      have := buildQueue_family_enabled p _ hb
      simpa [familyFlag] using this
    · intro h
      rw [buildQueue]
      simp only [List.mem_append]
      exact Or.inl (Or.inl (Or.inr (by rw [if_pos h]; simp)))
  · rintro ⟨k, lab, q, hq⟩
    have := buildQueue_family_enabled p _ hq
    simpa [familyFlag] using this
  · constructor
    · intro hb
      have := buildQueue_family_enabled p _ hb
      simpa [familyFlag] using this
    · intro h
      rw [buildQueue]
      simp only [List.mem_append]
      exact Or.inr (by rw [if_pos h]; simp)

/-- Witness for C10 at concrete inputs: the lowercase string `'true'` on the
upholstery flag (with a positive couch quantity) contributes no task, while
the exact string `'True'` enables pet stain. -/
theorem buildQueue_flag_strictness_witness :
    (¬ ∃ k lab q, Task.upholstery k lab q ∈
        buildQueue { upholstery := .str "true", couch := .num (some 1) }) ∧
    Task.pet_stain ∈ buildQueue { pet_stain := .str "True" } := by
  constructor
  · intro hex
    have := (buildQueue_flag_strictness
      { upholstery := .str "true", couch := .num (some 1) }).2.2.1 hex
    exact absurd this (by decide)
  · exact (buildQueue_flag_strictness { pet_stain := .str "True" }).2.1.mpr (by decide)

/-!  The orchestration loop (`main`, `playwright_script.mjs` lines
1408-1426): `for (let i = 0; i < queue.length; i++)` invokes the driver
matching each task with `meta = { isLast: i === queue.length - 1 }`.
Every task built by `buildQueue` has one of the four known types, so each
iteration performs exactly one driver invocation. -/

/-- The sequence of driver invocations (task, isLast) the loop performs. -/
def mainLoop (q : List Task) : List (Task × Bool) :=
  q.enum.map (fun it => (it.2, it.1 == q.length - 1))

lemma range_last_flag (n : Nat) :
    (List.range n).map (fun i => i == n - 1) =
      List.replicate (n - 1) false ++ (if n = 0 then [] else [true]) := by
  cases n with
  | zero => simp
  | succ m =>
    rw [List.range_succ]
    simp only [List.map_append, List.map_cons, List.map_nil]
    have h1 : (List.range m).map (fun i => i == m) = List.replicate m false := by
      refine List.eq_replicate_iff.mpr ⟨by simp, ?_⟩
      intro b hb
      simp only [List.mem_map, List.mem_range] at hb
      obtain ⟨i, hi, rfl⟩ := hb
      simpa using Nat.ne_of_lt hi
    simp [Nat.add_sub_cancel, h1]

/-- C3: the loop passes `isLast = (i == N-1)` — for a nonempty queue of
length N the flag sequence is N-1 times `false` followed by a single
`true` on the final invocation, and a queue of length 0 performs no
driver invocations at all. -/
theorem mainLoop_isLast (q : List Task) :
    ((mainLoop q).map Prod.snd =
      List.replicate (q.length - 1) false ++ (if q.length = 0 then [] else [true])) ∧
    (mainLoop q).length = q.length := by
  constructor
  · calc (mainLoop q).map Prod.snd
        = (q.enum.map Prod.fst).map (fun i => i == q.length - 1) := by
          simp only [mainLoop, List.map_map]; rfl
      _ = (List.range q.length).map (fun i => i == q.length - 1) := by
          rw [List.enum_map_fst]
      _ = _ := range_last_flag _
  · simp [mainLoop]

/-!  The resilient locator (`tryClick`, `playwright_script.mjs` lines
51-72).  A candidate strategy is the duck-typed variant dispatched on in the
source (`typeof v === 'string'`, `v.role`, `v.text`, `v.label`); regex
patterns are carried as their source text, since the page is abstract.  The
page is modelled as an assignment, per candidate, of the resolved element
count and of whether acting (clicking/filling) on the first resolved element
succeeds within its timeout. -/

/-- One locator candidate strategy. -/
inductive Candidate where
  | css (sel : String)
  | role (r : String) (namePat : String) (exactFlag : Bool)
  | text (pat : String)
  | byLabel (pat : String)
  deriving DecidableEq, Repr

/-- What the abstract page yields for one candidate: how many elements the
strategy resolves to, and whether the subsequent action on `.first()`
succeeds (rather than throwing within its timeout). -/
structure CandOutcome where
  count : Nat
  actOk : Bool
  deriving DecidableEq, Repr

/-- An abstract page state. -/
def Page : Type := Candidate → CandOutcome

/-- The `tryClick` loop, instrumented: starting at index `i`, returns the
index of the winning candidate (if any) together with the list of indices
whose strategies were attempted (resolved and, when present, acted on).
A candidate with zero matches is skipped; a failing click is caught and the
next candidate is tried; the first candidate that is present and clicks
successfully wins and the loop returns at once. -/
def tryClickFrom (page : Page) (i : Nat) : List Candidate → Option Nat × List Nat
  | [] => (none, [])
  | c :: rest =>
    let o := page c
    if o.count = 0 then
      let r := tryClickFrom page (i + 1) rest
      (r.1, i :: r.2)
    else if o.actOk then (some i, [i])
    else
      let r := tryClickFrom page (i + 1) rest
      (r.1, i :: r.2)

/-- `tryClick` with its attempt trace. -/
def tryClickTrace (page : Page) (cs : List Candidate) : Option Nat × List Nat :=
  tryClickFrom page 0 cs

/-- `tryClick`'s boolean result. -/
def tryClick (page : Page) (cs : List Candidate) : Bool :=
  (tryClickTrace page cs).1.isSome

/-- C6: if the first two candidates resolve to zero elements and the third
resolves to one element that is successfully acted on, `tryClick` uses the
element found by the third strategy (the winner is index 2) and the fourth
candidate (and everything after it) is never attempted. -/
theorem tryClick_fallback_ordering (page : Page) (c0 c1 c2 c3 : Candidate)
    (rest : List Candidate)
    (h0 : (page c0).count = 0) (h1 : (page c1).count = 0)
    (h2 : (page c2).count = 1) (h2' : (page c2).actOk = true) :
    tryClickTrace page (c0 :: c1 :: c2 :: c3 :: rest) = (some 2, [0, 1, 2]) ∧
    tryClick page (c0 :: c1 :: c2 :: c3 :: rest) = true := by
  have : tryClickTrace page (c0 :: c1 :: c2 :: c3 :: rest) = (some 2, [0, 1, 2]) := by
    simp [tryClickTrace, tryClickFrom, h0, h1, h2, h2']
  exact ⟨this, by simp [tryClick, this]⟩

/-- Witness for C6 on a concrete page: only the third of four CSS
candidates resolves. -/
theorem tryClick_fallback_ordering_witness :
    tryClickTrace
      (fun c => if c = .css "#three" then ⟨1, true⟩ else ⟨0, false⟩)
      [.css "#zero", .css "#one", .css "#three", .css "#four"] = (some 2, [0, 1, 2]) :=
  (tryClick_fallback_ordering
    (fun c => if c = .css "#three" then ⟨1, true⟩ else ⟨0, false⟩)
    (.css "#zero") (.css "#one") (.css "#three") (.css "#four") []
    (by decide) (by decide) (by decide) (by decide)).1

/-- Outcome of one step: either it completed (with the warnings it logged)
or it raised an error, aborting the run. -/
inductive StepResult where
  | ok
  | fatal (msg : String)
  deriving DecidableEq, Repr

/-- The "Add to booking" candidates of `finalizeThisService`
(`playwright_script.mjs` lines 981-989), in declaration order. -/
def addToBookingSelectors : List Candidate :=
  [.role "button" "/^add to booking$/i" false,
   .role "button" "/add\\s*to\\s*booking/i" false,
   .text "/add to booking/i",
   .css "button:has-text(\"Add to booking\")",
   .css "button:has-text(\"Add to Booking\")",
   .css ".MuiButton-root:has-text(\"Add to booking\")",
   .css "[role=\"button\"]:has-text(\"Add to booking\")"]

/-- The "Book Service"/"Continue" candidates of `finalizeThisService`
(`playwright_script.mjs` lines 1015-1028), in declaration order. -/
def bookServiceSelectors : List Candidate :=
  [.role "button" "/book service/i" false,
   .text "/book service/i",
   .role "button" "/book now/i" false,
   .role "button" "/book my appointment/i" false,
   .role "button" "/proceed/i" false,
   .role "button" "/continue$/i" false,
   .text "/continue$/i",
   .css "button:has-text(\"Book Service\")",
   .css "button:has-text(\"Book Now\")",
   .css "button:has-text(\"Continue\")",
   .css ".MuiButton-root:has-text(\"Book\")",
   .css ".MuiButton-containedPrimary"]

/-- The gate of `finalizeThisService` up to reaching the contacts screen
(`playwright_script.mjs` lines 991-1054): a failed "Add to booking"
click only logs a warning; a failed "Book Service"/"Continue" click
throws, aborting the run (the orchestrator catches it, screenshots, and
sets a nonzero exit code). -/
def finalizeGate (page : Page) : List String × StepResult :=
  let added := tryClick page addToBookingSelectors
  let warns :=
    if added then []
    else ["No \"Add to booking\" visible—may be auto-added or service not selected properly."]
  let booked := tryClick page bookServiceSelectors
  if booked then (warns, .ok)
  else (warns,
    .fatal "Could not reach contact details after adding a service. Check if service was properly selected.")

lemma tryClick_false_of_absent (page : Page) (cs : List Candidate)
    (h : ∀ c ∈ cs, (page c).count = 0) : tryClick page cs = false := by
  suffices h' : ∀ i, (tryClickFrom page i cs).1 = none by
    simp [tryClick, tryClickTrace, h' 0]
  intro i
  induction cs generalizing i with
  | nil => simp [tryClickFrom]
  | cons c rest ih =>
    have hc : (page c).count = 0 := h c (by simp)
    simp only [tryClickFrom, hc, if_pos rfl]
    exact ih (fun c hm => h c (by simp [hm])) (i + 1)

/-- C7: in the per-service finalize step, absence of every "Add to
booking" candidate is soft — the step logs a warning and completes — as
long as a "Book Service"/"Continue" candidate succeeds; when every
"Book Service"/"Continue" candidate is absent, the step raises the fatal
error aborting the run. -/
theorem finalize_soft_vs_fatal (pageA pageB : Page)
    (hAabs : ∀ c ∈ addToBookingSelectors, (pageA c).count = 0)
    (hAbook : tryClick pageA bookServiceSelectors = true)
    (hBbook : ∀ c ∈ bookServiceSelectors, (pageB c).count = 0) :
    finalizeGate pageA =
      (["No \"Add to booking\" visible—may be auto-added or service not selected properly."],
       .ok) ∧
    (finalizeGate pageB).2 =
      .fatal "Could not reach contact details after adding a service. Check if service was properly selected." := by
  constructor
  · rw [finalizeGate]
    simp only [tryClick_false_of_absent pageA _ hAabs, hAbook]
    simp
  · rw [finalizeGate]
    simp only [tryClick_false_of_absent pageB _ hBbook]
    simp

/-- Witness for C7: a page with no "Add to booking" control but a clickable
"Book Service" button proceeds with a warning; a page with no
"Book Service"/"Continue" control at all raises. -/
theorem finalize_soft_vs_fatal_witness :
    (finalizeGate (fun c => if c ∈ addToBookingSelectors then ⟨0, false⟩ else ⟨1, true⟩)).2
      = .ok ∧
    (finalizeGate (fun _ => ⟨0, false⟩)).2
      = .fatal "Could not reach contact details after adding a service. Check if service was properly selected." := by
  have h := finalize_soft_vs_fatal
    (fun c => if c ∈ addToBookingSelectors then ⟨0, false⟩ else ⟨1, true⟩)
    (fun _ => ⟨0, false⟩)
    (by intro c hc; simp [hc])
    (by decide)
    (by intro c hc; rfl)
  exact ⟨by rw [h.1], h.2⟩

/-!  Carpet-cleaning driver.  Both variants use the same bedrooms→pattern
map (`map[Number(bedrooms)] || map[4]`); they disagree on what a failed
bedrooms click does: `playwright_script.mjs` (lines 1137-1165) throws
`'Could not click bedrooms option.'`, while the `unnamed/part_002` variant
(lines 518-535) logs `'Could not click bedrooms option; continuing.'` and
proceeds.  `bedrooms` is the task's number (`none` models `NaN`);
`Number` of a number is the identity, and a missing map entry falls back
to the 4-bedroom pattern. -/

/-- The regex source selected by the bedrooms map (the key-4 entry and the
`|| map[4]` fallback coincide, so any key other than 2 and 3 yields the
4-bedroom pattern). -/
def bedroomsPattern (bedrooms : Option Int) : String :=
  if bedrooms = some 2 then "two\\s*\\(\\s*2\\s*\\)\\s*bedrooms\\s*house"
  else if bedrooms = some 3 then "three\\s*\\(\\s*3\\s*\\)\\s*bedrooms\\s*house"
  else "four\\s*\\(\\s*4\\s*\\)\\s*bedrooms\\s*house"

/-- `String(n)` for a JS number. -/
def jsNumToString (n : Option Int) : String :=
  match n with
  | none => "NaN"
  | some n => toString n

/-- The bedrooms-option click of `handleCarpetCleaning` in
`playwright_script.mjs`: four candidates (the template interpolation of
the `want` RegExp stringifies it as `/pattern/i`), and a failed pick
throws. -/
def handleCarpetCleaningPick (page : Page) (bedrooms : Option Int) : StepResult :=
  let want := bedroomsPattern bedrooms
  let picked := tryClick page
    [.text ("/" ++ want ++ "/i"),
     .role "button" ("/" ++ want ++ "/i") false,
     .css ("button:has-text(\"" ++ jsNumToString bedrooms ++ "\")"),
     .css ("button:has-text(\"/" ++ want ++ "/i\")")]
  if picked then .ok else .fatal "Could not click bedrooms option."

/-- The bedrooms-option click of the `unnamed/part_002` variant: two
`tryClick` calls, and a failed pick only logs a warning and proceeds. -/
def handleCarpetCleaningPickAlt (page : Page) (bedrooms : Option Int) :
    List String × StepResult :=
  let want := bedroomsPattern bedrooms
  let picked := tryClick page [.text ("/" ++ want ++ "/i")]
      || tryClick page [.role "button" ("/" ++ want ++ "/i") false]
  if picked then ([], .ok)
  else (["Could not click bedrooms option; continuing."], .ok)

/-- Counterexample to C8: in the main workflow script
(`playwright_script.mjs`), a failed bedrooms click is fatal — on a page
where no bedrooms candidate resolves, `handleCarpetCleaning` throws
rather than proceeding, contradicting "the failure is logged and is not
fatal". -/
theorem carpet_cleaning_click_failure_is_fatal_in_main :
    handleCarpetCleaningPick (fun _ => ⟨0, false⟩) (some 3)
        = .fatal "Could not click bedrooms option." ∧
    handleCarpetCleaningPick (fun _ => ⟨0, false⟩) (some 3) ≠ .ok := by
  exact ⟨rfl, by decide⟩

/-- C8 (amended): both drivers map bedroom counts 2, 3, 4 to their
label patterns and use the 4-bedroom pattern for every other value; in
the `unnamed/part_002` variant a failed bedrooms click is logged and
non-fatal, but in `playwright_script.mjs` it throws and aborts the run. -/
theorem carpet_cleaning_mapping_and_fatality (b : Option Int) (page : Page)
    (habs : ∀ c, (page c).count = 0) :
    bedroomsPattern (some 2) = "two\\s*\\(\\s*2\\s*\\)\\s*bedrooms\\s*house" ∧
    bedroomsPattern (some 3) = "three\\s*\\(\\s*3\\s*\\)\\s*bedrooms\\s*house" ∧
    bedroomsPattern (some 4) = "four\\s*\\(\\s*4\\s*\\)\\s*bedrooms\\s*house" ∧
    (b ≠ some 2 → b ≠ some 3 → bedroomsPattern b = bedroomsPattern (some 4)) ∧
    handleCarpetCleaningPickAlt page b =
      (["Could not click bedrooms option; continuing."], .ok) ∧
    handleCarpetCleaningPick page b = .fatal "Could not click bedrooms option." := by
  have hf : ∀ cs : List Candidate, tryClick page cs = false :=
    fun cs => tryClick_false_of_absent page cs (fun c _ => habs c)
  refine ⟨rfl, rfl, rfl, ?_, ?_, ?_⟩
  · intro h2 h3
    simp [bedroomsPattern, h2, h3]
  · rw [handleCarpetCleaningPickAlt]
    simp [hf]
  · rw [handleCarpetCleaningPick]
    simp [hf]

/-- Witness for the amended C8 at a concrete bedrooms value and page. -/
theorem carpet_cleaning_mapping_and_fatality_witness :
    handleCarpetCleaningPickAlt (fun _ => ⟨0, false⟩) (some 7) =
      (["Could not click bedrooms option; continuing."], .ok) ∧
    bedroomsPattern (some 7) = bedroomsPattern (some 4) := by
  have h := carpet_cleaning_mapping_and_fatality (some 7) (fun _ => ⟨0, false⟩)
    (fun _ => rfl)
  exact ⟨h.2.2.2.2.1, h.2.2.2.1 (by decide) (by decide)⟩

/-!  `setQty` (`playwright_script.mjs` lines 123-148). -/

/-- One page interaction performed by `setQty`: resolving a candidate's
element count, attempting to fill it, or pressing Tab. -/
inductive PageAction where
  | probe (c : Candidate)
  | fill (c : Candidate) (value : String)
  | pressTab
  deriving DecidableEq, Repr

/-- `qty <= 0` under JS coercion (`NaN <= 0` is false). -/
def jsLeZero (v : JsValue) : Bool :=
  match jsNumber v with
  | some n => decide (n ≤ 0)
  | none => false

/-- The candidate strategies of `setQty`, in declaration order. -/
def setQtyLocs : List Candidate :=
  [.css "input[type=\"number\"]",
   .css "input[role=\"spinbutton\"]",
   .byLabel "/qty|quantity/i",
   .role "spinbutton" "/qty|quantity/i" false]

/-- The candidate loop of `setQty`: skip candidates resolving to zero
elements; on the first present candidate, fill it with the quantity string
— if the fill throws, the exception is caught and the next candidate is
tried; on success, press Tab and return true. -/
def setQtyGo (page : Page) (qstr : String) : List Candidate → Bool × List PageAction
  | [] => (false, [])
  | c :: rest =>
    let o := page c
    if o.count = 0 then
      let r := setQtyGo page qstr rest
      (r.1, .probe c :: r.2)
    else if o.actOk then (true, [.probe c, .fill c qstr, .pressTab])
    else
      let r := setQtyGo page qstr rest
      (r.1, .probe c :: .fill c qstr :: r.2)

/-- `setQty`: `if (!qty || qty <= 0) return false;` — a falsy or
non-positive quantity is a no-op returning false with no page
interaction; otherwise the candidate loop runs with `String(qty)`. -/
def setQty (page : Page) (qty : JsValue) : Bool × List PageAction :=
  if !jsTruthy qty || jsLeZero qty then (false, [])
  else setQtyGo page (jsToString qty) setQtyLocs

lemma setQtyGo_fill_value (page : Page) (qstr : String) :
    ∀ cs : List Candidate, ∀ c s,
      PageAction.fill c s ∈ (setQtyGo page qstr cs).2 → s = qstr := by
  intro cs
  induction cs with
  | nil => intro c s h; simp [setQtyGo] at h
  | cons c0 rest ih =>
    intro c s h
    rw [setQtyGo] at h
    split at h
    · simp only [List.mem_cons] at h
      rcases h with h | h
      · cases h
      · exact ih c s h
    · split at h
      · simp only [List.mem_cons] at h
        rcases h with h | h | h | h
        · cases h
        · exact (PageAction.fill.inj h).2
        · cases h
        · exact absurd h (List.not_mem_nil _)
      · simp only [List.mem_cons] at h
        rcases h with h | h | h
        · cases h
        · exact (PageAction.fill.inj h).2
        · exact ih c s h

/-- C9: `setQty` is a no-op returning `false`, performing no page
interaction, for every qty that is null, zero or negative (or otherwise
falsy/non-positive); only for qty > 0 does it run the locate loop, every
fill it attempts writes the string form of qty, and on a successful first
candidate it fills the quantity input and presses Tab to commit. -/
theorem setQty_noop_or_fill (page : Page) (v : JsValue) :
    ((jsTruthy v = false ∨ jsLeZero v = true) → setQty page v = (false, [])) ∧
    (∀ c s, PageAction.fill c s ∈ (setQty page v).2 → s = jsToString v) ∧
    (∀ n : Int, v = .num (some n) → 0 < n →
      (page (.css "input[type=\"number\"]")).count ≠ 0 →
      (page (.css "input[type=\"number\"]")).actOk = true →
      setQty page v =
        (true, [.probe (.css "input[type=\"number\"]"),
                .fill (.css "input[type=\"number\"]") (toString n),
                .pressTab])) := by
  refine ⟨?_, ?_, ?_⟩
  · intro h
    rw [setQty]
    rcases h with h | h <;> simp [h]
  · intro c s h
    rw [setQty] at h
    split at h
    · simp at h
    · exact setQtyGo_fill_value page (jsToString v) setQtyLocs c s h
  · rintro n rfl hn hcount hact
    have ht : jsTruthy (.num (some n)) = true := by
      simp [jsTruthy]; omega
    have hz : jsLeZero (.num (some n)) = false := by
      simp [jsLeZero, jsNumber]; omega
    rw [setQty, ht, hz]
    simp only [Bool.not_true, Bool.or_self, Bool.false_or, if_neg (by simp : ¬false = true)]
    rw [setQtyLocs, setQtyGo]
    simp [hcount, hact, jsToString]

/-- Witness for C9: qty 0 is a no-op with no interaction; qty 3 on a page
whose numeric input is present fills "3" and presses Tab. -/
theorem setQty_noop_or_fill_witness :
    setQty (fun _ => ⟨1, true⟩) (.num (some 0)) = (false, []) ∧
    setQty (fun _ => ⟨1, true⟩) (.num (some 3)) =
      (true, [.probe (.css "input[type=\"number\"]"),
              .fill (.css "input[type=\"number\"]") "3",
              .pressTab]) :=
  ⟨(setQty_noop_or_fill (fun _ => ⟨1, true⟩) (.num (some 0))).1 (Or.inl (by decide)),
   (setQty_noop_or_fill (fun _ => ⟨1, true⟩) (.num (some 3))).2.2 3 rfl
     (by decide) (by decide) (by decide)⟩

/-!  The arrival-window matcher (`unnamed/part_004`).  Its three regexes
are modelled as explicit character-list matchers with the same
greedy-with-backtracking semantics:
`/(\d{1,2})(?::(\d{2}))?/` in `startKeyFromTimeString`,
`/^\s*(\d{1,2})(?::(\d{2}))?\s*(?:am|pm)?\s*[-–]/i` in
`startKeyFromSlotLabel`, and the "looks like a time range" filter
`/(\d{1,2})(?::\d{2})?\s*(?:am|pm)?\s*[-–]\s*(\d{1,2})(?::\d{2})?\s*(?:am|pm)/i`.
`\s*` segments are consumed greedily with no backtracking, which is exact
here because the tokens that follow them can never match a whitespace
character.  JS `\s` is modelled by `Char.isWhitespace`. -/

/-- Numeric value of a digit run. -/
def digitsToNat (ds : List Char) : Nat :=
  ds.foldl (fun a c => a * 10 + (c.toNat - 48)) 0

/-- `String(parseInt(m[1], 10)) ++ ":" ++ mm` — the normalized start key
(leading zero stripped from the hour by the parseInt round-trip). -/
def keyOf (ds : List Char) (mm : String) : String :=
  toString (digitsToNat ds) ++ ":" ++ mm

/-- The optional `(?::(\d{2}))?` capture of the time-string regex: the
minute digits if a colon and two digits follow, else "00". -/
def optMM (cs : List Char) : String :=
  match cs with
  | ':' :: d1 :: d2 :: _ =>
    if d1.isDigit && d2.isDigit then String.mk [d1, d2] else "00"
  | _ => "00"

/-- Leftmost match of `/(\d{1,2})(?::(\d{2}))?/`: scan to the first digit,
take up to two digits greedily, then the optional minutes. -/
def firstTimeScan : List Char → Option String
  | [] => none
  | c :: rest =>
    if c.isDigit then
      match rest with
      | d :: rest2 =>
        if d.isDigit then some (keyOf [c, d] (optMM rest2))
        else some (keyOf [c] (optMM rest))
      | [] => some (keyOf [c] "00")
    else firstTimeScan rest

/-- `startKeyFromTimeString` (`unnamed/part_004` lines 5-12). -/
def startKeyFromTimeString (s : String) : Option String :=
  if s = "" then none
  else firstTimeScan (jsStrTrim s).data

/-- First character pair of a case-insensitive `am|pm`. -/
def isAmPmStart (a m : Char) : Bool :=
  (a == 'a' || a == 'A' || a == 'p' || a == 'P') && (m == 'm' || m == 'M')

def isDashChar (c : Char) : Bool := c == '-' || c == '–'

/-- `\s*[-–]` — a dash after optional whitespace. -/
def dashAfterWs (cs : List Char) : Bool :=
  match cs.dropWhile Char.isWhitespace with
  | c :: _ => isDashChar c
  | [] => false

/-- `\s*(?:am|pm)?\s*[-–]` — the tail of the slot-label start regex,
with the optional meridiem tried greedily first. -/
def slotDash (cs : List Char) : Bool :=
  (match cs.dropWhile Char.isWhitespace with
   | a :: m :: rest => isAmPmStart a m && dashAfterWs rest
   | _ => false)
  || dashAfterWs cs

/-- `(?::(\d{2}))?\s*(?:am|pm)?\s*[-–]` — the optional minutes (tried
greedily first, backtracking to the empty alternative) followed by the
dash tail; yields the captured minutes, "00" when absent. -/
def slotTail (cs : List Char) : Option String :=
  match cs with
  | ':' :: d1 :: d2 :: rest =>
    if d1.isDigit && d2.isDigit && slotDash rest then some (String.mk [d1, d2])
    else if slotDash cs then some "00" else none
  | _ => if slotDash cs then some "00" else none

/-- `startKeyFromSlotLabel` (`unnamed/part_004` lines 14-22): anchored
`^\s*(\d{1,2})(?::(\d{2}))?\s*(?:am|pm)?\s*[-–]`, two digits tried
greedily before backtracking to one. -/
def startKeyFromSlotLabel (slotLabel : String) : Option String :=
  if slotLabel = "" then none
  else
    match (jsStrTrim slotLabel).data.dropWhile Char.isWhitespace with
    | c :: rest =>
      if c.isDigit then
        match rest with
        | d :: rest2 =>
          if d.isDigit then
            match slotTail rest2 with
            | some mm => some (keyOf [c, d] mm)
            | none =>
              match slotTail rest with
              | some mm => some (keyOf [c] mm)
              | none => none
          else
            match slotTail rest with
            | some mm => some (keyOf [c] mm)
            | none => none
        | [] =>
          match slotTail [] with
          | some mm => some (keyOf [c] mm)
          | none => none
      else none
    | [] => none

/-- `innerText.replace(/\s+/g, ' ')`: collapse whitespace runs to one
space. -/
def collapseWs : List Char → List Char
  | [] => []
  | [c] => [if c.isWhitespace then ' ' else c]
  | c :: d :: rest =>
    if c.isWhitespace && d.isWhitespace then collapseWs (d :: rest)
    else (if c.isWhitespace then ' ' else c) :: collapseWs (d :: rest)

/-- `raw = innerText.replace(/\s+/g, ' ').trim()`. -/
def normSpace (s : String) : String := jsStrTrim (String.mk (collapseWs s.data))

/-- Continuation-passing matchers for the time-range filter regex. -/
abbrev MatchK := List Char → Bool

def mDigits12 (k : MatchK) : MatchK := fun cs =>
  match cs with
  | [] => false
  | c :: rest =>
    if c.isDigit then
      match rest with
      | d :: rest2 => if d.isDigit then (k rest2 || k rest) else k rest
      | [] => k []
    else false

def mOptColon2 (k : MatchK) : MatchK := fun cs =>
  (match cs with
   | ':' :: d1 :: d2 :: rest => if d1.isDigit && d2.isDigit then k rest else false
   | _ => false)
  || k cs

def mWsSkip (k : MatchK) : MatchK := fun cs => k (cs.dropWhile Char.isWhitespace)

def mOptAmPm (k : MatchK) : MatchK := fun cs =>
  (match cs with
   | a :: m :: rest => if isAmPmStart a m then k rest else false
   | _ => false)
  || k cs

def mAmPm (k : MatchK) : MatchK := fun cs =>
  match cs with
  | a :: m :: rest => if isAmPmStart a m then k rest else false
  | _ => false

def mDash (k : MatchK) : MatchK := fun cs =>
  match cs with
  | c :: rest => if isDashChar c then k rest else false
  | [] => false

/-- The range-filter regex matched at one position. -/
def rangeAtPos : MatchK :=
  mDigits12 (mOptColon2 (mWsSkip (mOptAmPm (mWsSkip (mDash (mWsSkip
    (mDigits12 (mOptColon2 (mWsSkip (mAmPm (fun _ => true)))))))))))

def anyPos (k : MatchK) : List Char → Bool
  | [] => k []
  | c :: rest => k (c :: rest) || anyPos k rest

/-- `.test(raw)` of the "looks like a time range" regex. -/
def rangeLike (s : String) : Bool := anyPos rangeAtPos s.data

/-- The selection loop of `selectArrivalWindowByStart`: for each button
text in order, keep only labels passing the range filter; click (and
stop at) the first whose start key equals the wanted key. -/
def primaryScan (wantKey : String) : List String → Option String
  | [] => none
  | t :: rest =>
    let raw := normSpace t
    if !rangeLike raw then primaryScan wantKey rest
    else if startKeyFromSlotLabel raw = some wantKey then some raw
    else primaryScan wantKey rest

def stripPrefChars : List Char → List Char → Option (List Char)
  | cs, [] => some cs
  | c :: cs, p :: ps => if c = p then stripPrefChars cs ps else none
  | [], _ :: _ => none

/-- The fallback regex `^\s*KEY\s*(?:am|pm)?\s*[-–]/i` built from the
wanted key (the escaped colon is a literal). -/
def rxStartMatch (key : String) (s : String) : Bool :=
  match stripPrefChars (s.data.dropWhile Char.isWhitespace) key.data with
  | some rest => slotDash rest
  | none => false

/-- The fallback `getByRole('button', { name: rx }).first()` scan; button
accessible names are whitespace-normalized. -/
def fallbackScan (wantKey : String) : List String → Option String
  | [] => none
  | t :: rest =>
    if rxStartMatch wantKey (normSpace t) then some (normSpace t)
    else fallbackScan wantKey rest

/-- Result of `selectArrivalWindowByStart`. -/
inductive SelectResult where
  | clicked (slotLabel : String)
  | invalidStart (msg : String)
  | notFound (msg : String)
  deriving DecidableEq, Repr

/-- `selectArrivalWindowByStart` (`unnamed/part_004` lines 24-70), as a
function of the rendered button texts: invalid start raises; otherwise the
primary loop clicks the first range-like label whose start key matches;
otherwise the fallback regex scan; otherwise it raises "not found". -/
def selectArrivalWindowByStart (startStr : String) (buttonTexts : List String) :
    SelectResult :=
  match startKeyFromTimeString startStr with
  | none => .invalidStart ("[time] Invalid time_frame_start: " ++ startStr)
  | some wantKey =>
    match primaryScan wantKey buttonTexts with
    | some l => .clicked l
    | none =>
      match fallbackScan wantKey buttonTexts with
      | some l => .clicked l
      | none => .notFound ("Could not find a time slot starting at " ++ startStr)

/-- C4: "10:00 AM" normalizes to start key "10:00" (no leading zero, no
meridiem); over the labels {"9:00 - 11:00am", "10:00 - 12:00pm",
"10:30 - 12:30pm"} the matcher selects exactly "10:00 - 12:00pm" and not
"10:30 - 12:30pm" (whose start key is "10:30"); and in general the
primary loop selects a label only if its start boundary normalizes to the
wanted key — never by substring containment. -/
theorem arrival_window_start_matching :
    startKeyFromTimeString "10:00 AM" = some "10:00" ∧
    selectArrivalWindowByStart "10:00 AM"
        ["9:00 - 11:00am", "10:00 - 12:00pm", "10:30 - 12:30pm"]
      = .clicked "10:00 - 12:00pm" ∧
    startKeyFromSlotLabel "10:30 - 12:30pm" = some "10:30" ∧
    (∀ want labels slotLabel, primaryScan want labels = some slotLabel →
      startKeyFromSlotLabel slotLabel = some want) := by
  refine ⟨by decide, by decide, by decide, ?_⟩
  intro want labels
  induction labels with
  | nil => intro l h; simp [primaryScan] at h
  | cons t rest ih =>
    intro l h
    rw [primaryScan] at h
    split at h
    · exact ih l h
    · split at h
      · next hkey => cases h; exact hkey
      · exact ih l h

/-- Witness for C4's universal part at the concrete label set. -/
theorem arrival_window_start_matching_witness :
    startKeyFromSlotLabel "10:00 - 12:00pm" = some "10:00" :=
  arrival_window_start_matching.2.2.2 "10:00"
    ["9:00 - 11:00am", "10:00 - 12:00pm", "10:30 - 12:30pm"]
    "10:00 - 12:00pm" (by decide)

/-!  Date parsing (`parseMMDDYYYY`, `playwright_script.mjs` lines 305-316)
and the date-selection step (`selectDate`, lines 318-349). -/

/-- `s.includes(c)`. -/
def jsIncludes (s : String) (c : Char) : Bool := s.data.contains c

/-- `s.split(sep)` for a single-character separator. -/
def splitOnChar (sep : Char) : List Char → List (List Char)
  | [] => [[]]
  | c :: rest =>
    let r := splitOnChar sep rest
    if c = sep then [] :: r
    else
      match r with
      | h :: t => (c :: h) :: t
      | [] => [[c]]

def jsSplit (s : String) (sep : Char) : List String :=
  (splitOnChar sep s.data).map String.mk

/-- The `{y, m, d}` record returned by `parseMMDDYYYY`.  `none` models both
`NaN` components (unparseable parts) and `undefined` (destructuring a
missing part). -/
structure JsDate where
  y : Option Int
  m : Option Int
  d : Option Int
  deriving DecidableEq, Repr

/-- `parseMMDDYYYY`: a falsy string gives null; a string containing `/` is
destructured as `[mm, dd, yyyy]`, one containing `-` as `[yyyy, mm, dd]`,
each part through `parseInt(x, 10)`; anything else gives null. -/
def parseMMDDYYYY (s : String) : Option JsDate :=
  if s = "" then none
  else if jsIncludes s '/' then
    let parts := (jsSplit s '/').map jsParseInt
    some ⟨parts.getD 2 none, parts.getD 0 none, parts.getD 1 none⟩
  else if jsIncludes s '-' then
    let parts := (jsSplit s '-').map jsParseInt
    some ⟨parts.getD 0 none, parts.getD 1 none, parts.getD 2 none⟩
  else none

/-- The control flow of `selectDate`: a null parse logs
`'Bad appointment_date; skip date selection.'` and returns; otherwise the
calendar-day click is attempted (abstracted to `clickOk`), and even a
failed click only logs a warning.  The step never raises. -/
def selectDateStep (dateStr : String) (clickOk : Bool) :
    List String × StepResult :=
  match parseMMDDYYYY dateStr with
  | none => (["Bad appointment_date; skip date selection."], .ok)
  | some _ =>
    if clickOk then ([], .ok)
    else (["Could not pick date; you may need month navigation."], .ok)

/-- Counterexample to C5: "a/b/c" is parseable in neither date format, yet
`parseMMDDYYYY` returns a record of NaN components rather than null
(because the string contains a `/`), and the date-selection step then
proceeds to attempt a click instead of logging the bad-date warning. -/
theorem parseMMDDYYYY_unparseable_not_null :
    parseMMDDYYYY "a/b/c" = some ⟨none, none, none⟩ ∧
    parseMMDDYYYY "a/b/c" ≠ none ∧
    selectDateStep "a/b/c" true = ([], .ok) := by
  refine ⟨by decide, by decide, by decide⟩

/-- C5 (amended): both "09/05/2025" and "2025-09-05" parse to
`{y: 2025, m: 9, d: 5}`; the parse is null exactly for the empty string
and for strings containing neither `/` nor `-` (a string containing
either separator always yields a record, with NaN components when parts
are unparseable); on a null parse the date-selection step logs the
bad-date warning and returns without raising. -/
theorem parseMMDDYYYY_roundtrip_and_nullity :
    parseMMDDYYYY "09/05/2025" = some ⟨some 2025, some 9, some 5⟩ ∧
    parseMMDDYYYY "2025-09-05" = some ⟨some 2025, some 9, some 5⟩ ∧
    (∀ s, parseMMDDYYYY s = none ↔
      (s = "" ∨ (jsIncludes s '/' = false ∧ jsIncludes s '-' = false))) ∧
    (∀ s clickOk, parseMMDDYYYY s = none →
      selectDateStep s clickOk =
        (["Bad appointment_date; skip date selection."], .ok)) := by
  refine ⟨by decide, by decide, ?_, ?_⟩
  · intro s
    rw [parseMMDDYYYY]
    split
    · next h => simp [h]
    · next h =>
      split
      · next h2 => simp [h, h2]
      · next h2 =>
        split
        · next h3 => simp [h, h2, h3]
        · next h3 =>
          simp only [eq_self_iff_true, true_iff]
          right
          constructor
          · revert h2; cases jsIncludes s '/' <;> simp
          · revert h3; cases jsIncludes s '-' <;> simp
  · intro s clickOk h
    rw [selectDateStep, h]

/-- Witness for the amended C5 at a concrete unparseable string. -/
theorem parseMMDDYYYY_roundtrip_and_nullity_witness :
    selectDateStep "garbage" true =
      (["Bad appointment_date; skip date selection."], .ok) :=
  parseMMDDYYYY_roundtrip_and_nullity.2.2.2 "garbage" true (by decide)

end HCP
